import Mathlib

/-!
Verification of the YieldSense whirlpool dashboard's concentrated-liquidity
position engine. Definitions are shallow embeddings of the TypeScript source:

* `server/src/handlers/createOrDeposit.ts` — tick alignment, position
  resolution, open-or-deposit composition;
* `server/src/handlers/withdraw.ts` — withdraw composition;
* `server/src/handlers/getLiquidityDistribution.ts` — the `collectFees` and
  `closePosition` handlers' instruction composition;
* `src/components/CreatePositionPanel.tsx` — deposit-ratio calculation and
  the liquidity-distribution chart aggregation (`chartBars`);
* `src/components/WithdrawModal.tsx` — the withdraw amount computation.

External SDK calls (Orca `@orca-so/whirlpools-sdk` v0.17 quote functions and
the floating-point `PriceMath.priceToTickIndex`) are injected as function
parameters, except for `TickUtil.getInitializableTickIndex`, whose one-line
arithmetic body is embedded directly. JavaScript numbers are modelled as
exact rationals and BigInt / BN values as naturals.
-/

/-- `TickUtil.getInitializableTickIndex` from `@orca-so/whirlpools-sdk`
(v0.17), as called at `createOrDeposit.ts:71-87`:
`tickIndex - (tickIndex % tickSpacing)`, where `%` is JavaScript's truncated
remainder (sign of the dividend), i.e. `Int.tmod`. -/
def getInitializableTickIndex (tickIndex tickSpacing : ℤ) : ℤ :=
  tickIndex - tickIndex.tmod tickSpacing

/-- Tick alignment performed by `createOrDeposit` (`createOrDeposit.ts:67-88`):
the raw lower and upper ticks are both passed through the same
`getInitializableTickIndex` call with the pool's tick spacing. -/
def alignRequestTicks (rawLower rawUpper tickSpacing : ℤ) : ℤ × ℤ :=
  (getInitializableTickIndex rawLower tickSpacing,
   getInitializableTickIndex rawUpper tickSpacing)

theorem tmod_nonpos_of_nonpos : ∀ (a b : ℤ), a ≤ 0 → a.tmod b ≤ 0 := by
  intro a b h
  match a, b with
  | .ofNat m, b =>
      have h0 : ((m : ℤ)) ≤ 0 := h
      have hm : m = 0 := by omega
      subst hm
      simp
  | .negSucc m, .ofNat n =>
      show -(Int.ofNat (m.succ % n)) ≤ 0
      exact neg_nonpos.mpr (Int.ofNat_nonneg _)
  | .negSucc m, .negSucc n =>
      show -(Int.ofNat (m.succ % n.succ)) ≤ 0
      exact neg_nonpos.mpr (Int.ofNat_nonneg _)

theorem getInitializableTickIndex_dvd (t s : ℤ) :
    s ∣ getInitializableTickIndex t s :=
  ⟨t.tdiv s, by
    have h := Int.tdiv_add_tmod t s
    unfold getInitializableTickIndex
    linarith⟩

theorem getInitializableTickIndex_le {t : ℤ} (s : ℤ) (ht : 0 ≤ t) :
    getInitializableTickIndex t s ≤ t := by
  have h := Int.tmod_nonneg s ht
  unfold getInitializableTickIndex
  omega

theorem getInitializableTickIndex_ge {t : ℤ} (s : ℤ) (ht : t ≤ 0) :
    t ≤ getInitializableTickIndex t s := by
  have h := tmod_nonpos_of_nonpos t s ht
  unfold getInitializableTickIndex
  omega

/-- C1 counterexample: the claim says the raw tick of the upper bound is
aligned UP, so the realized tick range never shrinks. In the code both bounds
go through the same truncating `getInitializableTickIndex`; for raw ticks
`(3, 65)` with tick spacing 64 the aligned pair is `(0, 64)`, whose upper
tick 64 is strictly below the requested raw upper tick 65: the realized
range has shrunk. -/
theorem alignRequestTicks_upper_shrinks :
    alignRequestTicks 3 65 64 = (0, 64) ∧ (alignRequestTicks 3 65 64).2 < 65 := by
  constructor
  · rfl
  · decide

/-- C1 amended: both aligned ticks are multiples of `tickSpacing`, but both
bounds are aligned by the same truncation-toward-zero rule
`t - t % tickSpacing`: a non-negative raw tick is rounded down (by less than
one spacing) and a non-positive raw tick is rounded up, for the lower and the
upper bound alike. In particular the upper bound is NOT rounded up, so the
realized range can shrink relative to the requested range. -/
theorem alignRequestTicks_spec (rawLower rawUpper tickSpacing : ℤ)
    (hs : 0 < tickSpacing) :
    tickSpacing ∣ (alignRequestTicks rawLower rawUpper tickSpacing).1 ∧
    tickSpacing ∣ (alignRequestTicks rawLower rawUpper tickSpacing).2 ∧
    (0 ≤ rawLower → (alignRequestTicks rawLower rawUpper tickSpacing).1 ≤ rawLower ∧
      rawLower - tickSpacing < (alignRequestTicks rawLower rawUpper tickSpacing).1) ∧
    (0 ≤ rawUpper → (alignRequestTicks rawLower rawUpper tickSpacing).2 ≤ rawUpper ∧
      rawUpper - tickSpacing < (alignRequestTicks rawLower rawUpper tickSpacing).2) ∧
    (rawLower ≤ 0 → rawLower ≤ (alignRequestTicks rawLower rawUpper tickSpacing).1) ∧
    (rawUpper ≤ 0 → rawUpper ≤ (alignRequestTicks rawLower rawUpper tickSpacing).2) := by
  refine ⟨getInitializableTickIndex_dvd _ _, getInitializableTickIndex_dvd _ _,
    ?_, ?_, ?_, ?_⟩
  · intro h
    refine ⟨getInitializableTickIndex_le _ h, ?_⟩
    have hlt := Int.tmod_lt_of_pos rawLower hs
    unfold alignRequestTicks getInitializableTickIndex
    simp only
    omega
  · intro h
    refine ⟨getInitializableTickIndex_le _ h, ?_⟩
    have hlt := Int.tmod_lt_of_pos rawUpper hs
    unfold alignRequestTicks getInitializableTickIndex
    simp only
    omega
  · intro h
    exact getInitializableTickIndex_ge _ h
  · intro h
    exact getInitializableTickIndex_ge _ h

theorem alignRequestTicks_spec_witness :
    0 < (64 : ℤ) ∧
    ((64 : ℤ) ∣ (alignRequestTicks 3 65 64).1 ∧
     (64 : ℤ) ∣ (alignRequestTicks 3 65 64).2 ∧
     (0 ≤ (3 : ℤ) → (alignRequestTicks 3 65 64).1 ≤ 3 ∧
       (3 : ℤ) - 64 < (alignRequestTicks 3 65 64).1) ∧
     (0 ≤ (65 : ℤ) → (alignRequestTicks 3 65 64).2 ≤ 65 ∧
       (65 : ℤ) - 64 < (alignRequestTicks 3 65 64).2) ∧
     ((3 : ℤ) ≤ 0 → (3 : ℤ) ≤ (alignRequestTicks 3 65 64).1) ∧
     ((65 : ℤ) ≤ 0 → (65 : ℤ) ≤ (alignRequestTicks 3 65 64).2)) :=
  ⟨by decide, alignRequestTicks_spec 3 65 64 (by decide)⟩

/-- Quote produced by the SDK's `increaseLiquidityQuoteByInputToken`
(external to the repository); only its identity matters to the claims, so it
is an abstract record and the quote function itself is injected as a
parameter wherever the handlers call it. -/
structure IncQuote where
  liquidity : ℕ
  tokenMaxA : ℕ
  tokenMaxB : ℕ
  deriving DecidableEq

/-- Quote produced by the SDK's `decreaseLiquidityQuoteByLiquidity`
(external to the repository), likewise abstract. -/
structure DecQuote where
  liquidity : ℕ
  tokenMinA : ℕ
  tokenMinB : ℕ
  deriving DecidableEq

/-- On-chain instructions composed by the handlers. Parameters record the
data the handlers pass when building each instruction. -/
inductive Ix where
  | openPosition (tickLower tickUpper : ℤ) : Ix
  | increaseLiquidity (quote : IncQuote) : Ix
  | decreaseLiquidity (quote : DecQuote) : Ix
  | updateFeesAndRewards (position : String) : Ix
  | collectFees (position : String) : Ix
  | closePosition (position : String) : Ix
  deriving DecidableEq

/-- Pool snapshot consumed by the handlers (`whirlpool.getData()` plus token
infos). -/
structure PoolSnapshot where
  address : String
  tokenAMint : String
  decimalsA : ℕ
  decimalsB : ℕ
  tickSpacing : ℤ
  deriving DecidableEq

/-- Position account data (`position.getData()`): owning pool, tick indices,
mint, liquidity and owed fees. BN values are modelled as naturals. -/
structure PositionAccount where
  whirlpool : String
  tickLowerIndex : ℤ
  tickUpperIndex : ℤ
  positionMint : String
  liquidity : ℕ
  feeOwedA : ℕ
  feeOwedB : ℕ
  deriving DecidableEq

/-- `CreateOrDepositRequest` from `createOrDeposit.ts:18-27`. Absent optional
fields are `none` (the JS code tests them for truthiness; the empty string,
also falsy, behaves like an absent field and is modelled as `none`). -/
structure CreateOrDepositRequest where
  wallet : String
  whirlpool : String
  tickLower : Option ℤ
  tickUpper : Option ℤ
  priceLower : Option String
  priceUpper : Option String
  amountA : String
  amountB : Option String

/-- Result of a successful `createOrDeposit`: the composed instruction list
of the transaction, the reported position mint, and the `isNewPosition`
flag. -/
structure CreateOrDepositResult where
  instructions : List Ix
  positionMint : String
  isNewPosition : Bool
  deriving DecidableEq

/-- The fixed slippage fraction `Percentage.fromFraction(10, 1000)` hardcoded
at `createOrDeposit.ts:130` and `withdraw.ts:87`. -/
def defaultSlippage : ℕ × ℕ := (10, 1000)

/-- Tick resolution of `createOrDeposit.ts:64-90`: prefer the price-string
path (raw ticks via the SDK's floating-point `PriceMath.priceToTickIndex`,
injected as `p2t`), else the explicit tick path, else fail. Both paths align
each bound with `getInitializableTickIndex`. -/
def requestTicks (p2t : String → ℕ → ℕ → ℤ) (pool : PoolSnapshot)
    (req : CreateOrDepositRequest) : Except String (ℤ × ℤ) :=
  match req.priceLower, req.priceUpper with
  | some pl, some pu =>
      .ok (getInitializableTickIndex (p2t pl pool.decimalsA pool.decimalsB) pool.tickSpacing,
           getInitializableTickIndex (p2t pu pool.decimalsA pool.decimalsB) pool.tickSpacing)
  | _, _ =>
      match req.tickLower, req.tickUpper with
      | some tl, some tu =>
          .ok (getInitializableTickIndex tl pool.tickSpacing,
               getInitializableTickIndex tu pool.tickSpacing)
      | _, _ => .error "Must provide either tick indices or prices"

/-- Position matching loop of `createOrDeposit.ts:94-110`: over the wallet's
fetched positions (null entries skipped), take the first whose pool address
and tick indices equal the aligned request ticks. -/
def resolvePosition (positions : List (Option PositionAccount))
    (poolAddress : String) (tickLower tickUpper : ℤ) : Option PositionAccount :=
  (positions.filterMap id).find? fun p =>
    p.whirlpool == poolAddress && p.tickLowerIndex == tickLower &&
      p.tickUpperIndex == tickUpper

/-- Shallow embedding of `createOrDeposit` (`createOrDeposit.ts:41-199`):
resolve ticks, look for an existing position of the wallet (whose fetched
position list is `positions`), quote liquidity from token A's mint and
`amountA` at the fixed 1% slippage, then either open a new position plus
increase liquidity, or increase liquidity on the match. `p2t` injects
`PriceMath.priceToTickIndex`, `qf` injects
`increaseLiquidityQuoteByInputToken`, and `freshMint` injects the mint
keypair generated by the SDK's `openPosition`. -/
def createOrDeposit (p2t : String → ℕ → ℕ → ℤ)
    (qf : String → String → ℤ → ℤ → ℕ × ℕ → PoolSnapshot → IncQuote)
    (freshMint : String) (pool : PoolSnapshot)
    (positions : List (Option PositionAccount))
    (req : CreateOrDepositRequest) : Except String CreateOrDepositResult :=
  (requestTicks p2t pool req).bind fun t =>
    let quote := qf pool.tokenAMint req.amountA t.1 t.2 defaultSlippage pool
    match resolvePosition positions pool.address t.1 t.2 with
    | none =>
        .ok ⟨[Ix.openPosition t.1 t.2, Ix.increaseLiquidity quote], freshMint, true⟩
    | some p =>
        .ok ⟨[Ix.increaseLiquidity quote], p.positionMint, false⟩

/-- C2: for a wallet's position list, pool and aligned tick pair: a matching
position yields only an increase-liquidity instruction with
`isNewPosition = false` and that position's mint; no match yields
open-position plus increase-liquidity with `isNewPosition = true`; and any
two requests resolving to the same aligned ticks (against the same wallet
snapshot and pool) report the same `isNewPosition` decision. -/
theorem createOrDeposit_match_key (p2t : String → ℕ → ℕ → ℤ)
    (qf : String → String → ℤ → ℤ → ℕ × ℕ → PoolSnapshot → IncQuote)
    (freshMint : String) (pool : PoolSnapshot)
    (positions : List (Option PositionAccount))
    (req : CreateOrDepositRequest) (l u : ℤ)
    (ht : requestTicks p2t pool req = .ok (l, u)) :
    (resolvePosition positions pool.address l u = none →
      createOrDeposit p2t qf freshMint pool positions req =
        .ok ⟨[Ix.openPosition l u,
              Ix.increaseLiquidity (qf pool.tokenAMint req.amountA l u defaultSlippage pool)],
             freshMint, true⟩) ∧
    (∀ p, resolvePosition positions pool.address l u = some p →
      createOrDeposit p2t qf freshMint pool positions req =
        .ok ⟨[Ix.increaseLiquidity (qf pool.tokenAMint req.amountA l u defaultSlippage pool)],
             p.positionMint, false⟩) ∧
    (∀ req₂ r r₂, requestTicks p2t pool req₂ = .ok (l, u) →
      createOrDeposit p2t qf freshMint pool positions req = .ok r →
      createOrDeposit p2t qf freshMint pool positions req₂ = .ok r₂ →
      r₂.isNewPosition = r.isNewPosition) := by
  refine ⟨?_, ?_, ?_⟩
  · intro hres
    unfold createOrDeposit
    rw [ht]
    simp [Except.bind, hres]
  · intro p hres
    unfold createOrDeposit
    rw [ht]
    simp [Except.bind, hres]
  · intro req₂ r r₂ ht₂ hr hr₂
    unfold createOrDeposit at hr hr₂
    rw [ht] at hr
    rw [ht₂] at hr₂
    simp only [Except.bind] at hr hr₂
    cases hres : resolvePosition positions pool.address l u with
    | none =>
        rw [hres] at hr hr₂
        simp at hr hr₂
        rw [← hr, ← hr₂]
    | some p =>
        rw [hres] at hr hr₂
        simp at hr hr₂
        rw [← hr, ← hr₂]

/-- Concrete sample values used by witnesses. `sampleP2T` stands for the
floating-point `PriceMath.priceToTickIndex`, mapping the price string
"120" to raw tick 3 and anything else to raw tick 65. -/
def sampleP2T : String → ℕ → ℕ → ℤ := fun s _ _ => if s == "120" then 3 else 65

def sampleQuoteFn : String → String → ℤ → ℤ → ℕ × ℕ → PoolSnapshot → IncQuote :=
  fun _ _ _ _ _ _ => ⟨1, 2, 3⟩

def samplePool : PoolSnapshot := ⟨"pool", "mintA", 9, 6, 64⟩

def samplePosition : PositionAccount := ⟨"pool", 0, 64, "posmint", 100, 0, 0⟩

def sampleReqTicks : CreateOrDepositRequest :=
  ⟨"wallet", "pool", some 3, some 65, none, none, "10", none⟩

theorem createOrDeposit_match_key_witness :
    (createOrDeposit sampleP2T sampleQuoteFn "m" samplePool [] sampleReqTicks =
      .ok ⟨[Ix.openPosition 0 64, Ix.increaseLiquidity ⟨1, 2, 3⟩], "m", true⟩) ∧
    (createOrDeposit sampleP2T sampleQuoteFn "m" samplePool [some samplePosition]
        sampleReqTicks =
      .ok ⟨[Ix.increaseLiquidity ⟨1, 2, 3⟩], "posmint", false⟩) :=
  ⟨(createOrDeposit_match_key sampleP2T sampleQuoteFn "m" samplePool [] sampleReqTicks
      0 64 (by rfl)).1 (by rfl),
   (createOrDeposit_match_key sampleP2T sampleQuoteFn "m" samplePool
      [some samplePosition] sampleReqTicks 0 64 (by rfl)).2.1 samplePosition (by rfl)⟩

/-- C10: the result of `createOrDeposit` does not depend on
`request.amountB` (the field is never read), and the quote placed in the
composed instructions is always computed from token A's mint and `amountA`
with the slippage fixed at the fraction `(10, 1000)` (1%); there is no
caller-supplied slippage input. -/
theorem createOrDeposit_ignores_amountB (p2t : String → ℕ → ℕ → ℤ)
    (qf : String → String → ℤ → ℤ → ℕ × ℕ → PoolSnapshot → IncQuote)
    (freshMint : String) (pool : PoolSnapshot)
    (positions : List (Option PositionAccount))
    (req : CreateOrDepositRequest) (b : Option String) :
    (createOrDeposit p2t qf freshMint pool positions { req with amountB := b } =
      createOrDeposit p2t qf freshMint pool positions req) ∧
    (∀ l u r, requestTicks p2t pool req = .ok (l, u) →
      createOrDeposit p2t qf freshMint pool positions req = .ok r →
      Ix.increaseLiquidity (qf pool.tokenAMint req.amountA l u (10, 1000) pool) ∈
        r.instructions) := by
  constructor
  · cases req
    rfl
  · intro l u r ht hr
    unfold createOrDeposit at hr
    rw [ht] at hr
    simp only [Except.bind] at hr
    cases hres : resolvePosition positions pool.address l u with
    | none =>
        rw [hres] at hr
        simp at hr
        rw [← hr]
        simp [defaultSlippage]
    | some p =>
        rw [hres] at hr
        simp at hr
        rw [← hr]
        simp [defaultSlippage]

theorem createOrDeposit_ignores_amountB_witness :
    (createOrDeposit sampleP2T sampleQuoteFn "m" samplePool []
        { sampleReqTicks with amountB := some "5" } =
      createOrDeposit sampleP2T sampleQuoteFn "m" samplePool [] sampleReqTicks) ∧
    Ix.increaseLiquidity (sampleQuoteFn "mintA" "10" 0 64 (10, 1000) samplePool) ∈
      [Ix.openPosition 0 64, Ix.increaseLiquidity (⟨1, 2, 3⟩ : IncQuote)] :=
  ⟨(createOrDeposit_ignores_amountB sampleP2T sampleQuoteFn "m" samplePool []
      sampleReqTicks (some "5")).1,
   (createOrDeposit_ignores_amountB sampleP2T sampleQuoteFn "m" samplePool []
      sampleReqTicks (some "5")).2 0 64
      ⟨[Ix.openPosition 0 64, Ix.increaseLiquidity ⟨1, 2, 3⟩], "m", true⟩
      (by rfl) (by rfl)⟩

/-- `WithdrawRequest` from `withdraw.ts:15-19`; the `liquidity` string is
parsed with BN, modelled as a natural. -/
structure WithdrawRequest where
  wallet : String
  positionMint : String
  liquidity : ℕ

/-- Response of the withdraw handler: success flag, composed instructions,
estimated minimum token amounts from the quote, and an error message on
failure. -/
structure WithdrawResult where
  success : Bool
  instructions : List Ix
  estimatedTokenA : Option ℕ
  estimatedTokenB : Option ℕ
  error : Option String
  deriving DecidableEq

/-- The SDK's `decreaseLiquidityQuoteByLiquidity`
(`@orca-so/whirlpools-sdk` v0.17, called at `withdraw.ts:85`) begins with
`invariant(liquidity.lte(positionData.liquidity), "Quote liquidity is more
than the position liquidity.")` and throws that message when the requested
liquidity exceeds the position's; otherwise it returns a quote, whose
numeric content stays injected (`dqf`) as external quote math. -/
def decreaseLiquidityQuoteByLiquidity
    (dqf : ℕ → ℕ × ℕ → PositionAccount → DecQuote)
    (liquidity : ℕ) (slippage : ℕ × ℕ) (pos : PositionAccount) :
    Except String DecQuote :=
  if liquidity ≤ pos.liquidity then .ok (dqf liquidity slippage pos)
  else .error "Quote liquidity is more than the position liquidity."

/-- Shallow embedding of `withdraw` (`withdraw.ts:33-132`): look up the
position by its mint-derived PDA (`positionOf` injects the chain lookup),
quote the decrease with the SDK's `decreaseLiquidityQuoteByLiquidity` at the
fixed 1% slippage, and compose the decrease-liquidity instruction. The
quote's invariant throw is the only liquidity validation on this path; the
handler's try/catch turns it into a failure response carrying that error
message, before any instruction is composed. -/
def withdraw (dqf : ℕ → ℕ × ℕ → PositionAccount → DecQuote)
    (positionOf : String → Option PositionAccount)
    (req : WithdrawRequest) : WithdrawResult :=
  match positionOf req.positionMint with
  | none => ⟨false, [], none, none, some "Position does not exist"⟩
  | some pos =>
      match decreaseLiquidityQuoteByLiquidity dqf req.liquidity
        defaultSlippage pos with
      | .error msg => ⟨false, [], none, none, some msg⟩
      | .ok quote =>
          ⟨true, [Ix.decreaseLiquidity quote], some quote.tokenMinA,
           some quote.tokenMinB, none⟩

/-- Sample decrease-liquidity quote function for witnesses: echoes the
requested liquidity. -/
def sampleDecQuoteFn : ℕ → ℕ × ℕ → PositionAccount → DecQuote :=
  fun l _ _ => ⟨l, 0, 0⟩

/-- C6: when the requested `liquidityToRemove` exceeds the position's
liquidity, the withdraw operation fails before any instruction is composed:
the quote's invariant rejects the request, the handler's catch returns
`success = false` carrying the insufficient-liquidity message, and the
composed instruction list is empty (no partial compose). -/
theorem withdraw_insufficient_liquidity_fails
    (dqf : ℕ → ℕ × ℕ → PositionAccount → DecQuote)
    (positionOf : String → Option PositionAccount)
    (req : WithdrawRequest) (pos : PositionAccount)
    (hp : positionOf req.positionMint = some pos)
    (hgt : pos.liquidity < req.liquidity) :
    withdraw dqf positionOf req =
      ⟨false, [], none, none,
       some "Quote liquidity is more than the position liquidity."⟩ := by
  unfold withdraw
  simp only [hp]
  unfold decreaseLiquidityQuoteByLiquidity
  rw [if_neg (by omega : ¬ req.liquidity ≤ pos.liquidity)]

theorem withdraw_insufficient_liquidity_fails_witness :
    withdraw sampleDecQuoteFn (fun _ => some samplePosition)
        ⟨"wallet", "posmint", 200⟩ =
      ⟨false, [], none, none,
       some "Quote liquidity is more than the position liquidity."⟩ :=
  withdraw_insufficient_liquidity_fails sampleDecQuoteFn
    (fun _ => some samplePosition) ⟨"wallet", "posmint", 200⟩ samplePosition rfl
    (by decide)

/-- Instruction list composed by the `collectFees` handler
(`getLiquidityDistribution.ts:121-228`): an update-fees-and-rewards
instruction followed by the collect-fees instruction, in one atomic
transaction. -/
def collectFeesCompose (position : String) : List Ix :=
  [Ix.updateFeesAndRewards position, Ix.collectFees position]

/-- C5: in every instruction list composed by the collect-fees action, any
collect-fees instruction sits immediately after an update-fees-and-rewards
instruction for the same position; collect-fees never appears without that
preceding refresh. -/
theorem collectFeesCompose_update_precedes (position : String) (i : ℕ)
    (a : String) (h : (collectFeesCompose position)[i]? = some (Ix.collectFees a)) :
    0 < i ∧ (collectFeesCompose position)[i - 1]? =
      some (Ix.updateFeesAndRewards a) := by
  match i with
  | 0 => simp [collectFeesCompose] at h
  | 1 =>
      simp [collectFeesCompose] at h
      subst h
      exact ⟨Nat.zero_lt_one, rfl⟩
  | n + 2 => simp [collectFeesCompose] at h

theorem collectFeesCompose_update_precedes_witness :
    0 < 1 ∧ (collectFeesCompose "pos")[0]? =
      some (Ix.updateFeesAndRewards "pos") :=
  collectFeesCompose_update_precedes "pos" 1 "pos" rfl

/-- Instructions emitted by the SDK builder `position.collectFees()` as used
by the closePosition handler (`getLiquidityDistribution.ts:327-339`): it
prepends an update-fees-and-rewards instruction when the position still has
liquidity and always emits the collect-fees instruction; it never inspects
the owed fee amounts. -/
def collectFeesBuilderIxs (pos : PositionAccount) : List Ix :=
  (if pos.liquidity ≠ 0 then [Ix.updateFeesAndRewards pos.positionMint] else []) ++
    [Ix.collectFees pos.positionMint]

/-- Shallow embedding of the `closePosition` handler
(`getLiquidityDistribution.ts:263-395`): when the position still has
liquidity, compose decrease-liquidity (from the injected SDK quote `dqf`)
followed by the collect-fees builder's instructions; otherwise start from the
collect-fees builder alone; in both cases append the close-position
instruction last. Nowhere does the handler check `feeOwedA`/`feeOwedB`. -/
def composeClose (dqf : ℕ → ℕ × ℕ → PositionAccount → DecQuote)
    (pos : PositionAccount) : List Ix :=
  (if pos.liquidity ≠ 0 then
      Ix.decreaseLiquidity (dqf pos.liquidity defaultSlippage pos) ::
        collectFeesBuilderIxs pos
    else collectFeesBuilderIxs pos) ++ [Ix.closePosition pos.positionMint]

/-- Position with zero liquidity and zero owed fees, for the C4
counterexample. -/
def sampleEmptyPosition : PositionAccount := ⟨"pool", 0, 64, "emptymint", 0, 0, 0⟩

/-- C4 counterexample: closing a position with `liquidity == 0` and zero owed
fees composes `[collectFees, closePosition]`, not only `closePosition`: the
collect-fees instruction is included even though no fees are owed. -/
theorem composeClose_empty_not_only_close :
    composeClose sampleDecQuoteFn sampleEmptyPosition =
      [Ix.collectFees "emptymint", Ix.closePosition "emptymint"] ∧
    sampleEmptyPosition.liquidity = 0 ∧
    sampleEmptyPosition.feeOwedA = 0 ∧
    sampleEmptyPosition.feeOwedB = 0 ∧
    composeClose sampleDecQuoteFn sampleEmptyPosition ≠
      [Ix.closePosition "emptymint"] := by
  refine ⟨rfl, rfl, rfl, rfl, by decide⟩

/-- C4 amended: for every position with zero liquidity, regardless of the
fees owed, the composed close list is exactly the collect-fees instruction
followed by the close-position instruction; the collect-fees instruction is
always present and close-position comes last. -/
theorem composeClose_zero_liquidity
    (dqf : ℕ → ℕ × ℕ → PositionAccount → DecQuote)
    (pos : PositionAccount) (h : pos.liquidity = 0) :
    composeClose dqf pos =
      [Ix.collectFees pos.positionMint, Ix.closePosition pos.positionMint] := by
  unfold composeClose collectFeesBuilderIxs
  simp [h]

theorem composeClose_zero_liquidity_witness :
    composeClose sampleDecQuoteFn sampleEmptyPosition =
      [Ix.collectFees sampleEmptyPosition.positionMint,
       Ix.closePosition sampleEmptyPosition.positionMint] :=
  composeClose_zero_liquidity sampleDecQuoteFn sampleEmptyPosition rfl

/-- Withdraw amount computed by the WithdrawModal
(`WithdrawModal.tsx:66-67`): exact BigInt arithmetic
`totalLiquidity * BigInt(percentage) / BigInt(100)` with truncating
division. -/
def liquidityToRemove (totalLiquidity percentage : ℕ) : ℕ :=
  totalLiquidity * percentage / 100

/-- C9: the requested withdraw amount is floor(L·p/100) in exact integer
arithmetic; at p = 100 it equals the position's entire liquidity exactly
(leaving zero liquidity, never a silent partial withdraw), and for every
p ≤ 100 it never exceeds the position's liquidity. -/
theorem liquidityToRemove_spec (L p : ℕ) (hp : p ≤ 100) :
    liquidityToRemove L 100 = L ∧
    L - liquidityToRemove L 100 = 0 ∧
    liquidityToRemove L p ≤ L := by
  have h100 : liquidityToRemove L 100 = L := by
    unfold liquidityToRemove
    omega
  refine ⟨h100, by omega, ?_⟩
  calc liquidityToRemove L p = L * p / 100 := rfl
    _ ≤ L * 100 / 100 := Nat.div_le_div_right (Nat.mul_le_mul_left L hp)
    _ = L := by omega

theorem liquidityToRemove_spec_witness :
    liquidityToRemove 7 100 = 7 ∧
    7 - liquidityToRemove 7 100 = 0 ∧
    liquidityToRemove 7 40 ≤ 7 :=
  liquidityToRemove_spec 7 40 (by decide)

/-- JavaScript's `Math.round` for the finite values arising here:
the floor of `x + 1/2`. -/
def jsRound (x : ℚ) : ℤ := ⌊x + 1 / 2⌋

/-- Deposit ratio displayed by the panel: percentage shares for token A and
token B. -/
structure DepositRatio where
  ratioA : ℚ
  ratioB : ℚ
  deriving DecidableEq

/-- Shallow embedding of `calculateDepositRatio`
(`CreatePositionPanel.tsx:211-228`): missing inputs or a non-positive current
price give the 50/50 placeholder; a current price at or below the range
minimum gives `ratioA = 0, ratioB = 100`; one at or above the maximum gives
`ratioA = 100, ratioB = 0`; otherwise ratioB interpolates the price's
position within the range, rounded to one decimal place. -/
def calculateDepositRatio (minPrice maxPrice : Option ℚ) (currentPrice : ℚ) :
    DepositRatio :=
  match minPrice, maxPrice with
  | some mn, some mx =>
      if currentPrice ≤ 0 then ⟨50, 50⟩
      else if currentPrice ≤ mn then ⟨0, 100⟩
      else if mx ≤ currentPrice then ⟨100, 0⟩
      else
        let rangePosition := (currentPrice - mn) / (mx - mn)
        let ratioB : ℚ := (jsRound (rangePosition * 100 * 10) : ℚ) / 10
        ⟨100 - ratioB, ratioB⟩
  | _, _ => ⟨50, 50⟩

/-- C3 counterexample: with range [100, 110] and current price 90 (at or
below the lower bound), the code returns `ratioA = 0, ratioB = 100`: the
token-B share is 100, not 0 as the claim states — the single-sidedness is in
token B, the opposite token. -/
theorem calculateDepositRatio_below_range_tokenB :
    (calculateDepositRatio (some 100) (some 110) 90).ratioA = 0 ∧
    (calculateDepositRatio (some 100) (some 110) 90).ratioB = 100 ∧
    (calculateDepositRatio (some 100) (some 110) 90).ratioB ≠ 0 := by
  refine ⟨by decide, by decide, by decide⟩

/-- C3 amended: the sides are reversed relative to the claim: when the
current price is at or below the range minimum the computed deposit share is
single-sided with the token-A share zero (ratioA = 0, ratioB = 100), and
when it is above the minimum and at or above the maximum the token-B share
is zero (ratioA = 100, ratioB = 0). -/
theorem calculateDepositRatio_single_sided (mn mx P : ℚ) (hP : 0 < P) :
    (P ≤ mn → calculateDepositRatio (some mn) (some mx) P = ⟨0, 100⟩) ∧
    (mn < P → mx ≤ P → calculateDepositRatio (some mn) (some mx) P = ⟨100, 0⟩) := by
  constructor
  · intro h
    simp only [calculateDepositRatio]
    rw [if_neg (not_le.mpr hP), if_pos h]
  · intro h1 h2
    simp only [calculateDepositRatio]
    rw [if_neg (not_le.mpr hP), if_neg (not_le.mpr h1), if_pos h2]

theorem calculateDepositRatio_single_sided_witness :
    calculateDepositRatio (some 100) (some 110) 90 = ⟨0, 100⟩ ∧
    calculateDepositRatio (some 100) (some 110) 120 = ⟨100, 0⟩ :=
  ⟨(calculateDepositRatio_single_sided 100 110 90 (by norm_num)).1 (by norm_num),
   (calculateDepositRatio_single_sided 100 110 120 (by norm_num)).2
     (by norm_num) (by norm_num)⟩

/-- One entry of the liquidity distribution returned by the server
(`getLiquidityDistribution.ts:55-80`) as consumed by the panel: a tick index,
the gross liquidity (`Number(tick.liquidity)`) and the tick's pool ratio
price (token B per token A). -/
structure TickSample where
  tick : ℤ
  liquidity : ℚ
  price : ℚ
  deriving DecidableEq

/-- USD price conversion of one sample (`CreatePositionPanel.tsx:278-292`):
displaying token A multiplies the pool ratio by token B's USD price;
displaying token B divides token A's USD price by the ratio, guarded against
non-positive ratios (the initial value 0 is kept). -/
def tickPriceUsd (isDisplayTokenA : Bool) (tokenAPriceUsd tokenBPriceUsd : ℚ)
    (s : TickSample) : ℚ :=
  if isDisplayTokenA then s.price * tokenBPriceUsd
  else if 0 < s.price then tokenAPriceUsd / s.price else 0

/-- Chart window width `currentPrice * 0.4` (`CreatePositionPanel.tsx:269`). -/
def rangeWidth (currentPrice : ℚ) : ℚ := currentPrice * (4 / 10)

/-- Chart window start `currentPrice - rangeWidth / 2`
(`CreatePositionPanel.tsx:271`), i.e. 0.8 times the current price. -/
def windowStart (currentPrice : ℚ) : ℚ :=
  currentPrice - rangeWidth currentPrice / 2

/-- Bucket width `rangeWidth / 64` (`CreatePositionPanel.tsx:270`). -/
def bucketStep (currentPrice : ℚ) : ℚ := rangeWidth currentPrice / 64

/-- Processing of one sample in the real aggregation
(`CreatePositionPanel.tsx:278-304`): convert to USD, skip non-positive
prices, skip prices outside the closed window, floor the offset divided by
the bucket width to a bucket index, and when the index lies in `[0, 64)` add
the sample's liquidity to that bucket and update the running maximum. The
state is the pair (buckets, maxBucket). -/
def accumulateSample (currentPrice tokenAPriceUsd tokenBPriceUsd : ℚ)
    (isDisplayTokenA : Bool) (st : List ℚ × ℚ) (s : TickSample) : List ℚ × ℚ :=
  let usd := tickPriceUsd isDisplayTokenA tokenAPriceUsd tokenBPriceUsd s
  if usd ≤ 0 then st
  else if usd < windowStart currentPrice ∨
      windowStart currentPrice + rangeWidth currentPrice < usd then st
  else
    let idx : ℤ := ⌊(usd - windowStart currentPrice) / bucketStep currentPrice⌋
    if 0 ≤ idx ∧ idx < 64 then
      let i := idx.toNat
      let v := st.1.getD i 0 + s.liquidity
      (st.1.set i v, if st.2 < v then v else st.2)
    else st

/-- Real-path aggregation of `chartBars`: fold all samples over 64 buckets
initialised to zero with a zero running maximum. -/
def realBuckets (currentPrice tokenAPriceUsd tokenBPriceUsd : ℚ)
    (isDisplayTokenA : Bool) (samples : List TickSample) : List ℚ × ℚ :=
  samples.foldl
    (accumulateSample currentPrice tokenAPriceUsd tokenBPriceUsd isDisplayTokenA)
    (List.replicate 64 0, 0)

/-- Pegged token list of `CreatePositionPanel.tsx:237`. -/
def peggedTokens : List String := ["JupSOL", "mSOL", "stSOL", "bSOL", "jitoSOL"]

/-- `isPeggedPair` (`CreatePositionPanel.tsx:236-240`): one side is a pegged
liquid-staking token and the other is SOL. -/
def isPeggedPair (tokenA tokenB : String) : Bool :=
  (peggedTokens.contains tokenA && tokenB == "SOL") ||
    (peggedTokens.contains tokenB && tokenA == "SOL")

/-- Result of the `chartBars` memo: bucket values, running maximum, and the
static/synthetic flag the UI's badge keys on. -/
structure ChartBars where
  buckets : List ℚ
  maxBucket : ℚ
  isStatic : Bool
  deriving DecidableEq

/-- Shallow embedding of the `chartBars` memo
(`CreatePositionPanel.tsx:243-307`): null when the current price is zero (JS
falsy); the synthetic static branch when the pair is pegged or fewer than 20
samples were fetched in total; otherwise the real aggregation. `synth i`
injects the value of static bucket `i`, standing for the code's
`Math.exp(-(((i - 32) / 10)^2)) * 100 * (0.7 + Math.random() * 0.6)` — a
transcendental of a random draw, not representable as an exact rational; the
static branch's running maximum folds exactly as the code's loop does. -/
def chartBars (synth : ℕ → ℚ) (currentPrice : ℚ) (tokenA tokenB : String)
    (liquidityData : List TickSample) (tokenAPriceUsd tokenBPriceUsd : ℚ)
    (isDisplayTokenA : Bool) : Option ChartBars :=
  if currentPrice = 0 then none
  else if isPeggedPair tokenA tokenB = true ∨ liquidityData.length < 20 then
    let buckets := (List.range 64).map synth
    some ⟨buckets, buckets.foldl (fun m v => if m < v then v else m) 0, true⟩
  else if liquidityData.length = 0 then none
  else
    let r := realBuckets currentPrice tokenAPriceUsd tokenBPriceUsd
      isDisplayTokenA liquidityData
    some ⟨r.1, r.2, false⟩

/-- Number of samples whose converted USD price lies inside the closed
visualization window; the claim's notion of "in-window samples". -/
def inWindowCount (currentPrice tokenAPriceUsd tokenBPriceUsd : ℚ)
    (isDisplayTokenA : Bool) (samples : List TickSample) : ℕ :=
  (samples.filter fun s =>
    decide (windowStart currentPrice ≤
        tickPriceUsd isDisplayTokenA tokenAPriceUsd tokenBPriceUsd s ∧
      tickPriceUsd isDisplayTokenA tokenAPriceUsd tokenBPriceUsd s ≤
        windowStart currentPrice + rangeWidth currentPrice)).length

/-- Twenty fetched samples which all convert to USD price 1000, far outside
the window around price 100; used by the C7 counterexample. -/
def sampleFarData : List TickSample := List.replicate 20 ⟨0, 5, 1000⟩

/-- C7 counterexample: with 20 fetched samples of which none lies in the
window (so fewer than 20 in-window samples), and a non-pegged pair, the code
still takes the real path and does NOT flag the result as synthetic
(`isStatic = false`): the fallback condition counts fetched samples, not
in-window samples. -/
theorem chartBars_sparse_window_not_flagged :
    sampleFarData.length = 20 ∧
    inWindowCount 100 0 1 true sampleFarData = 0 ∧
    isPeggedPair "SOL" "USDC" = false ∧
    (chartBars (fun _ => 1) 100 "SOL" "USDC" sampleFarData 0 1 true).map
        (fun b => b.isStatic) = some false := by
  have hlen : sampleFarData.length = 20 := by simp [sampleFarData]
  have hcond : ¬ (isPeggedPair "SOL" "USDC" = true ∨ sampleFarData.length < 20) := by
    rw [hlen]
    rintro (h | h)
    · exact absurd h (by decide)
    · omega
  refine ⟨hlen, ?_, by decide, ?_⟩
  · unfold inWindowCount sampleFarData
    rw [List.filter_replicate]
    rw [if_neg ?_]
    · simp
    · rw [decide_eq_true_eq]
      norm_num [tickPriceUsd, windowStart, rangeWidth]
  · unfold chartBars
    rw [if_neg (by norm_num : ¬ (100 : ℚ) = 0), if_neg hcond,
      if_neg (by rw [hlen]; omega : ¬ sampleFarData.length = 0)]
    rfl

/-- C7 amended: with a nonzero current price the chart memo always produces
bars, and the synthetic fallback — tagged via `isStatic = true`, which is
what the UI's "Typical Distribution" badge keys on — is used exactly when
the pool is a recognized pegged pair or fewer than 20 samples were fetched
in total; the in-window sample count plays no role in the decision. The real
path always carries `isStatic = false`, so the fallback is never
indistinguishable from real data. -/
theorem chartBars_static_iff (synth : ℕ → ℚ) (currentPrice : ℚ)
    (tokenA tokenB : String) (liquidityData : List TickSample)
    (tokenAPriceUsd tokenBPriceUsd : ℚ) (isDisplayTokenA : Bool)
    (hP : currentPrice ≠ 0) :
    ∃ bars, chartBars synth currentPrice tokenA tokenB liquidityData
        tokenAPriceUsd tokenBPriceUsd isDisplayTokenA = some bars ∧
      (bars.isStatic = true ↔
        (isPeggedPair tokenA tokenB = true ∨ liquidityData.length < 20)) := by
  unfold chartBars
  rw [if_neg hP]
  by_cases hc : isPeggedPair tokenA tokenB = true ∨ liquidityData.length < 20
  · rw [if_pos hc]
    exact ⟨_, rfl, by simp [hc]⟩
  · rw [if_neg hc]
    have hlen : ¬ liquidityData.length = 0 := by
      intro h0
      exact hc (Or.inr (by omega))
    rw [if_neg hlen]
    refine ⟨_, rfl, ?_⟩
    simp only [iff_false, Bool.false_eq_true, false_iff]
    exact hc

theorem chartBars_static_iff_witness :
    ∃ bars, chartBars (fun _ => 1) 100 "SOL" "USDC" [] 0 1 true = some bars ∧
      (bars.isStatic = true ↔
        (isPeggedPair "SOL" "USDC" = true ∨ ([] : List TickSample).length < 20)) :=
  chartBars_static_iff (fun _ => 1) 100 "SOL" "USDC" [] 0 1 true (by norm_num)

/-- Half-open window membership: the converted USD price lies in
[windowStart, windowStart + rangeWidth). These are exactly the samples the
real aggregation books into a bucket. -/
def inHalfOpenWindow (currentPrice tokenAPriceUsd tokenBPriceUsd : ℚ)
    (isDisplayTokenA : Bool) (s : TickSample) : Bool :=
  decide (windowStart currentPrice ≤
      tickPriceUsd isDisplayTokenA tokenAPriceUsd tokenBPriceUsd s ∧
    tickPriceUsd isDisplayTokenA tokenAPriceUsd tokenBPriceUsd s <
      windowStart currentPrice + rangeWidth currentPrice)

/-- Closed window membership: the converted USD price lies in
[windowStart, windowStart + rangeWidth], the claim's notion of the window
[0.8·P, 1.2·P]. -/
def inClosedWindow (currentPrice tokenAPriceUsd tokenBPriceUsd : ℚ)
    (isDisplayTokenA : Bool) (s : TickSample) : Bool :=
  decide (windowStart currentPrice ≤
      tickPriceUsd isDisplayTokenA tokenAPriceUsd tokenBPriceUsd s ∧
    tickPriceUsd isDisplayTokenA tokenAPriceUsd tokenBPriceUsd s ≤
      windowStart currentPrice + rangeWidth currentPrice)

theorem inHalfOpenWindow_imp_closed (currentPrice tokenAPriceUsd tokenBPriceUsd : ℚ)
    (isDisplayTokenA : Bool) (s : TickSample)
    (h : inHalfOpenWindow currentPrice tokenAPriceUsd tokenBPriceUsd
      isDisplayTokenA s = true) :
    inClosedWindow currentPrice tokenAPriceUsd tokenBPriceUsd
      isDisplayTokenA s = true := by
  unfold inHalfOpenWindow at h
  unfold inClosedWindow
  rw [decide_eq_true_eq] at h
  rw [decide_eq_true_eq]
  exact ⟨h.1, h.2.le⟩

theorem sum_set_getD_add (l : List ℚ) (i : ℕ) (a : ℚ) (h : i < l.length) :
    (l.set i (l.getD i 0 + a)).sum = l.sum + a := by
  induction l generalizing i with
  | nil => simp at h
  | cons x xs ih =>
      cases i with
      | zero =>
          simp only [List.set_cons_zero, List.getD_cons_zero, List.sum_cons]
          ring
      | succ n =>
          simp only [List.set_cons_succ, List.getD_cons_succ, List.sum_cons]
          rw [ih n (by simpa using h)]
          ring

theorem accumulateSample_length (currentPrice tokenAPriceUsd tokenBPriceUsd : ℚ)
    (isDisplayTokenA : Bool) (st : List ℚ × ℚ) (s : TickSample) :
    ((accumulateSample currentPrice tokenAPriceUsd tokenBPriceUsd
      isDisplayTokenA st s).1).length = st.1.length := by
  simp only [accumulateSample]
  repeat' split
  all_goals simp [List.length_set]

theorem accumulateSample_sum (currentPrice tokenAPriceUsd tokenBPriceUsd : ℚ)
    (isDisplayTokenA : Bool) (st : List ℚ × ℚ) (s : TickSample)
    (hP : 0 < currentPrice) (hlen : st.1.length = 64) :
    ((accumulateSample currentPrice tokenAPriceUsd tokenBPriceUsd
        isDisplayTokenA st s).1).sum =
      st.1.sum + (if inHalfOpenWindow currentPrice tokenAPriceUsd tokenBPriceUsd
        isDisplayTokenA s = true then s.liquidity else 0) := by
  have hW : 0 < rangeWidth currentPrice := by
    unfold rangeWidth
    exact mul_pos hP (by norm_num)
  have hW0 : 0 < windowStart currentPrice := by
    unfold windowStart rangeWidth
    linarith
  have hstep : 0 < bucketStep currentPrice := by
    unfold bucketStep
    exact div_pos hW (by norm_num)
  simp only [accumulateSample, inHalfOpenWindow, decide_eq_true_eq]
  set usd := tickPriceUsd isDisplayTokenA tokenAPriceUsd tokenBPriceUsd s with husd
  set W0 := windowStart currentPrice with hW0d
  set W := rangeWidth currentPrice with hWd
  by_cases h1 : usd ≤ 0
  · rw [if_pos h1, if_neg (fun hc => absurd (lt_of_lt_of_le hW0 hc.1) (not_lt.mpr h1))]
    ring
  · rw [if_neg h1]
    by_cases h2 : usd < W0 ∨ W0 + W < usd
    · rw [if_pos h2]
      have hno : ¬ (W0 ≤ usd ∧ usd < W0 + W) := by
        rcases h2 with h | h
        · exact fun hc => absurd hc.1 (not_le.mpr h)
        · exact fun hc => absurd hc.2 (not_lt.mpr (le_of_lt h))
      rw [if_neg hno]
      ring
    · rw [if_neg h2]
      push_neg at h2
      obtain ⟨ha, hb⟩ := h2
      have hx0 : (0 : ℚ) ≤ (usd - W0) / bucketStep currentPrice :=
        div_nonneg (by linarith) hstep.le
      have hidx0 : 0 ≤ ⌊(usd - W0) / bucketStep currentPrice⌋ :=
        Int.floor_nonneg.mpr hx0
      by_cases h3 : usd < W0 + W
      · have hx64 : (usd - W0) / bucketStep currentPrice < 64 := by
          rw [div_lt_iff₀ hstep]
          have h64 : (64 : ℚ) * bucketStep currentPrice = W := by
            unfold bucketStep
            rw [← hWd]
            ring
          rw [h64]
          linarith
        have hidx64 : ⌊(usd - W0) / bucketStep currentPrice⌋ < 64 := by
          have := Int.floor_lt.mpr (by exact_mod_cast hx64)
          exact_mod_cast this
        rw [if_pos ⟨hidx0, hidx64⟩]
        simp only
        rw [sum_set_getD_add st.1 _ _ (by omega)]
        rw [if_pos ⟨ha, h3⟩]
      · have husdeq : usd = W0 + W := le_antisymm hb (not_lt.mp h3)
        have hxeq : (usd - W0) / bucketStep currentPrice = 64 := by
          rw [husdeq]
          unfold bucketStep
          rw [← hWd]
          field_simp
        have hfl : ⌊(usd - W0) / bucketStep currentPrice⌋ = 64 := by
          rw [hxeq]
          rw [show ((64 : ℚ)) = ((64 : ℤ) : ℚ) by norm_num, Int.floor_intCast]
        rw [if_neg (fun hc => by rw [hfl] at hc; omega)]
        rw [if_neg (fun hc => absurd hc.2 h3)]
        ring

theorem foldl_accumulateSample_sum (currentPrice tokenAPriceUsd tokenBPriceUsd : ℚ)
    (isDisplayTokenA : Bool) (hP : 0 < currentPrice) :
    ∀ (samples : List TickSample) (st : List ℚ × ℚ), st.1.length = 64 →
      ((samples.foldl (accumulateSample currentPrice tokenAPriceUsd tokenBPriceUsd
          isDisplayTokenA) st).1).sum =
        st.1.sum + ((samples.filter (inHalfOpenWindow currentPrice tokenAPriceUsd
          tokenBPriceUsd isDisplayTokenA)).map TickSample.liquidity).sum := by
  intro samples
  induction samples with
  | nil => intro st h; simp
  | cons s ss ih =>
      intro st hlen
      rw [List.foldl_cons]
      rw [ih _ (by rw [accumulateSample_length]; exact hlen)]
      rw [accumulateSample_sum currentPrice tokenAPriceUsd tokenBPriceUsd
        isDisplayTokenA st s hP hlen]
      cases hin : inHalfOpenWindow currentPrice tokenAPriceUsd tokenBPriceUsd
        isDisplayTokenA s with
      | true =>
          simp only [List.filter_cons, hin, if_pos, List.map_cons, List.sum_cons,
            if_true]
          ring
      | false =>
          simp only [List.filter_cons, hin, Bool.false_eq_true, if_false]
          ring

theorem halfOpen_le_closed_sum (currentPrice tokenAPriceUsd tokenBPriceUsd : ℚ)
    (isDisplayTokenA : Bool) :
    ∀ samples : List TickSample, (∀ s ∈ samples, 0 ≤ s.liquidity) →
      ((samples.filter (inHalfOpenWindow currentPrice tokenAPriceUsd tokenBPriceUsd
        isDisplayTokenA)).map TickSample.liquidity).sum ≤
      ((samples.filter (inClosedWindow currentPrice tokenAPriceUsd tokenBPriceUsd
        isDisplayTokenA)).map TickSample.liquidity).sum := by
  intro samples
  induction samples with
  | nil => simp
  | cons s ss ih =>
      intro hliq
      have hss := fun t ht => hliq t (List.mem_cons_of_mem _ ht)
      have hs := hliq s (List.mem_cons_self _ _)
      have ihs := ih hss
      cases hho : inHalfOpenWindow currentPrice tokenAPriceUsd tokenBPriceUsd
        isDisplayTokenA s with
      | false =>
          cases hcl : inClosedWindow currentPrice tokenAPriceUsd tokenBPriceUsd
            isDisplayTokenA s with
          | false =>
              simp only [List.filter_cons, hho, hcl, Bool.false_eq_true, if_false]
              exact ihs
          | true =>
              simp only [List.filter_cons, hho, hcl, Bool.false_eq_true, if_false,
                if_true, List.map_cons, List.sum_cons]
              linarith
      | true =>
          have hcl := inHalfOpenWindow_imp_closed currentPrice tokenAPriceUsd
            tokenBPriceUsd isDisplayTokenA s hho
          simp only [List.filter_cons, hho, hcl, if_true, List.map_cons,
            List.sum_cons]
          linarith

/-- C8 amended: for a positive current price and non-negative sample
liquidities, the sum of all 64 bucket values equals the sum of the
liquidities of the samples whose converted USD price lies in the HALF-OPEN
window [0.8·P, 1.2·P) — each such sample is booked into exactly one bucket,
with no double counting — and is therefore at most the in-window sum for the
closed window of the claim. A sample landing exactly on the upper window
edge 1.2·P passes the code's window filter but floors to bucket index 64 and
is discarded, so "exactly one bucket" holds only for the half-open window;
samples outside the window contribute to no bucket. -/
theorem realBuckets_no_double_count (currentPrice tokenAPriceUsd tokenBPriceUsd : ℚ)
    (isDisplayTokenA : Bool) (samples : List TickSample)
    (hP : 0 < currentPrice) (hliq : ∀ s ∈ samples, 0 ≤ s.liquidity) :
    ((realBuckets currentPrice tokenAPriceUsd tokenBPriceUsd isDisplayTokenA
        samples).1).sum =
      ((samples.filter (inHalfOpenWindow currentPrice tokenAPriceUsd tokenBPriceUsd
        isDisplayTokenA)).map TickSample.liquidity).sum ∧
    ((realBuckets currentPrice tokenAPriceUsd tokenBPriceUsd isDisplayTokenA
        samples).1).sum ≤
      ((samples.filter (inClosedWindow currentPrice tokenAPriceUsd tokenBPriceUsd
        isDisplayTokenA)).map TickSample.liquidity).sum := by
  have h1 : ((realBuckets currentPrice tokenAPriceUsd tokenBPriceUsd isDisplayTokenA
      samples).1).sum =
      ((samples.filter (inHalfOpenWindow currentPrice tokenAPriceUsd tokenBPriceUsd
        isDisplayTokenA)).map TickSample.liquidity).sum := by
    unfold realBuckets
    rw [foldl_accumulateSample_sum currentPrice tokenAPriceUsd tokenBPriceUsd
      isDisplayTokenA hP samples _ (by simp)]
    simp
  refine ⟨h1, ?_⟩
  rw [h1]
  exact halfOpen_le_closed_sum currentPrice tokenAPriceUsd tokenBPriceUsd
    isDisplayTokenA samples hliq

theorem realBuckets_no_double_count_witness :
    ((realBuckets 100 0 1 true [⟨0, 5, 100⟩]).1).sum =
      ((([⟨0, 5, 100⟩] : List TickSample).filter
        (inHalfOpenWindow 100 0 1 true)).map TickSample.liquidity).sum ∧
    ((realBuckets 100 0 1 true [⟨0, 5, 100⟩]).1).sum ≤
      ((([⟨0, 5, 100⟩] : List TickSample).filter
        (inClosedWindow 100 0 1 true)).map TickSample.liquidity).sum :=
  realBuckets_no_double_count 100 0 1 true [⟨0, 5, 100⟩] (by norm_num)
    (by
      intro s hs
      simp only [List.mem_singleton] at hs
      subst hs
      norm_num)

/-- Sample sitting exactly on the upper window edge: around price 100 the
window is [80, 120] and this sample converts to USD price 120. -/
def edgeSample : TickSample := ⟨0, 5, 120⟩

/-- C8 counterexample: the edge sample lies in the claim's closed window
[0.8·P, 1.2·P] and carries liquidity 5, yet after aggregation every bucket
is zero: the sample was booked into no bucket, so the claim that every
in-window sample contributes its liquidity to exactly one bucket fails. -/
theorem realBuckets_edge_sample_lost :
    inClosedWindow 100 0 1 true edgeSample = true ∧
    edgeSample.liquidity = 5 ∧
    (realBuckets 100 0 1 true [edgeSample]).1 = List.replicate 64 (0 : ℚ) ∧
    ((realBuckets 100 0 1 true [edgeSample]).1).sum = 0 := by
  have husd : tickPriceUsd true 0 1 edgeSample = 120 := by
    norm_num [tickPriceUsd, edgeSample]
  have hlist : (realBuckets 100 0 1 true [edgeSample]).1 =
      List.replicate 64 (0 : ℚ) := by
    unfold realBuckets
    rw [List.foldl_cons, List.foldl_nil]
    simp only [accumulateSample, husd]
    rw [if_neg (by norm_num : ¬ (120 : ℚ) ≤ 0)]
    rw [if_neg (by norm_num [windowStart, rangeWidth] :
      ¬ ((120 : ℚ) < windowStart 100 ∨ windowStart 100 + rangeWidth 100 < 120))]
    have harg : ((120 : ℚ) - windowStart 100) / bucketStep 100 = 64 := by
      norm_num [windowStart, rangeWidth, bucketStep]
    rw [harg]
    have hfl : ¬ (0 ≤ ⌊(64 : ℚ)⌋ ∧ ⌊(64 : ℚ)⌋ < 64) := by
      rw [show ((64 : ℚ)) = ((64 : ℤ) : ℚ) by norm_num, Int.floor_intCast]
      omega
    rw [if_neg hfl]
  refine ⟨?_, rfl, hlist, ?_⟩
  · unfold inClosedWindow
    rw [decide_eq_true_eq, husd]
    norm_num [windowStart, rangeWidth]
  · rw [hlist]
    simp
